import Mathlib

/-!
Shallow embedding of the `resolute-confluence` connector (Go) in Lean 4.

Strings are modelled as `List Char`.  Time instants (`time.Time`) are
modelled as `Int` with `Before` as `<`.  The HTTP layer is modelled by
passing the raw response (status code and body) and a decode function to
the client functions; the external document store is a function parameter.
-/

namespace Confluence

abbrev Str := List Char

/-- Go `unicode.IsSpace`: the Unicode White_Space property. -/
def isSpace (c : Char) : Bool :=
  (0x9 ≤ c.toNat && c.toNat ≤ 0xD) || c.toNat = 0x20 || c.toNat = 0x85 ||
  c.toNat = 0xA0 || c.toNat = 0x1680 || (0x2000 ≤ c.toNat && c.toNat ≤ 0x200A) ||
  c.toNat = 0x2028 || c.toNat = 0x2029 || c.toNat = 0x202F || c.toNat = 0x205F ||
  c.toNat = 0x3000

/-- Helper for the tag-removal regex `<[^>]*>`: the suffix after the first
`>` of the list, or `none` when the list has no `>`. -/
def afterGt : Str → Option Str
  | [] => none
  | c :: rest => if c = '>' then some rest else afterGt rest

theorem afterGt_length : ∀ (l l' : Str), afterGt l = some l' → l'.length < l.length := by
  intro l
  induction l with
  | nil => intro l' h; simp [afterGt] at h
  | cons c rest ih =>
    intro l' h
    by_cases hc : c = '>'
    · simp [afterGt, hc] at h
      simp [← h]
    · simp [afterGt, hc] at h
      exact Nat.lt_succ_of_lt (ih l' h)

/-- Go `htmlTagRegex.ReplaceAllString(html, " ")` with pattern `<[^>]*>`:
each maximal-free match runs from a `<` to the first following `>` and is
replaced by a single space; a `<` with no later `>` is left as is. -/
def stripTags (l : Str) : Str :=
  match l with
  | [] => []
  | c :: rest =>
    if c = '<' then
      match h : afterGt rest with
      | some rest' => ' ' :: stripTags rest'
      | none => '<' :: stripTags rest
    else c :: stripTags rest
termination_by l.length
decreasing_by
  · exact Nat.lt_succ_of_lt (afterGt_length rest rest' h)
  · simp
  · simp

/-- Go `strings.ReplaceAll(s, pat, rep)` for a non-empty pattern:
replace every non-overlapping leftmost occurrence of `pat` by `rep`. -/
def replaceAll (pat rep : Str) (s : Str) : Str :=
  if hp : pat = [] then s
  else
    match s with
    | [] => []
    | c :: rest =>
      if h : pat.isPrefixOf (c :: rest) then
        rep ++ replaceAll pat rep ((c :: rest).drop pat.length)
      else
        c :: replaceAll pat rep rest
termination_by s.length
decreasing_by
  · have hlen : 0 < pat.length := List.length_pos.mpr hp
    have hd := List.length_drop pat.length (c :: rest)
    simp only [List.length_cons] at hd ⊢
    omega
  · simp

/-- The five character-entity substitutions of `stripHTML`, in source order. -/
def entitySub (s : Str) : Str :=
  replaceAll ("&quot;".data) ("\"".data)
    (replaceAll ("&gt;".data) (">".data)
      (replaceAll ("&lt;".data) ("<".data)
        (replaceAll ("&amp;".data) ("&".data)
          (replaceAll ("&nbsp;".data) (" ".data) s))))

theorem dropWhile_length_le (p : Char → Bool) (l : Str) :
    (l.dropWhile p).length ≤ l.length := by
  induction l with
  | nil => simp
  | cons c rest ih =>
    by_cases h : p c
    · simp only [List.dropWhile_cons, h, if_true, List.length_cons]
      omega
    · simp [List.dropWhile_cons, h]

/-- Go `strings.Fields`: the maximal runs of non-whitespace characters. -/
def fields (l : Str) : List Str :=
  match l with
  | [] => []
  | c :: rest =>
    if isSpace c then fields rest
    else (c :: rest.takeWhile (fun d => !isSpace d)) ::
      fields (rest.dropWhile (fun d => !isSpace d))
termination_by l.length
decreasing_by
  · simp
  · exact Nat.lt_succ_of_le (dropWhile_length_le _ _)

/-- Go `strings.Join(words, " ")`. -/
def joinWords : List Str → Str
  | [] => []
  | [w] => w
  | w :: ws => w ++ ' ' :: joinWords ws

/-- Go `stripHTML`: strip `<...>` tags (each replaced by a space), apply the
five entity substitutions in order, then split on whitespace and re-join
with single spaces. -/
def stripHTML (s : Str) : Str :=
  joinWords (fields (entitySub (stripTags s)))

/-! ## Data model (client.go) -/

/-- Go `Space`. -/
structure Space where
  id : Int
  key : Str
  name : Str
deriving DecidableEq

/-- Go `StorageBody`. -/
structure StorageBody where
  value : Str
deriving DecidableEq

/-- Go `ViewBody`. -/
structure ViewBody where
  value : Str
deriving DecidableEq

/-- Go `Body`. -/
structure Body where
  storage : StorageBody
  view : ViewBody
deriving DecidableEq

/-- Go `Version`; `createdAt` is the precise creation instant
(`time.Time`, modelled as `Int`), `whenStr` the human-readable string. -/
structure Version where
  number : Int
  whenStr : Str
  createdAt : Int
deriving DecidableEq

/-- Go `PageLinks`. -/
structure PageLinks where
  webui : Str
  self : Str
deriving DecidableEq

/-- Go `Page`. -/
structure Page where
  id : Str
  type : Str
  status : Str
  title : Str
  space : Space
  body : Body
  version : Version
  links : PageLinks
deriving DecidableEq

/-- Go `SearchResultItem`. -/
structure SearchResultItem where
  content : Page
  title : Str
  excerpt : Str
  url : Str
  resultType : Str
deriving DecidableEq

/-- Go `SearchResult`. -/
structure SearchResult where
  results : List SearchResultItem
  start : Int
  limit : Int
  size : Int
deriving DecidableEq

/-- `transform.Document`: metadata is the association list as constructed. -/
structure Document where
  id : Str
  content : Str
  title : Str
  source : Str
  url : Str
  metadata : List (Str × Str)
  updatedAt : Int
deriving DecidableEq

/-- `core.DataRef`: an opaque reference to a stored batch. -/
structure DataRef where
  ref : Nat
deriving DecidableEq

/-! ## Remote access client (client.go)

The HTTP transport is out of scope; a client call is modelled on the raw
response it received (status code and body) together with the JSON decode
function for the expected payload shape. -/

/-- An HTTP response as seen by the client functions. -/
structure HttpResponse where
  status : Nat
  body : Str

/-- Error taxonomy of the client: a non-success response carries the
status code and the raw body; a payload that does not decode is a decode
failure. -/
inductive ApiError where
  | api (status : Nat) (body : Str)
  | decodeFailure
deriving DecidableEq

/-- A store failure. -/
structure StoreErr where
  msg : Str
deriving DecidableEq

/-- Operation-level error: the failing step wrapped around the cause. -/
inductive OpError where
  | remote (e : ApiError)
  | storeFailed (e : StoreErr)
deriving DecidableEq

/-- Go `Client.GetSpacePages` response handling (lines 199-211): non-200
status yields the API error with status and raw body; otherwise the body
is decoded into a list of pages. -/
def GetSpacePages (resp : HttpResponse) (decode : Str → Option (List Page)) :
    Except ApiError (List Page) :=
  if resp.status ≠ 200 then
    Except.error (ApiError.api resp.status resp.body)
  else
    match decode resp.body with
    | some pages => Except.ok pages
    | none => Except.error ApiError.decodeFailure

/-- Go `Client.SearchCQL` response handling (lines 133-143). -/
def SearchCQLClient (resp : HttpResponse) (decode : Str → Option SearchResult) :
    Except ApiError SearchResult :=
  if resp.status ≠ 200 then
    Except.error (ApiError.api resp.status resp.body)
  else
    match decode resp.body with
    | some result => Except.ok result
    | none => Except.error ApiError.decodeFailure

/-- Go `Client.GetPage` response handling (lines 164-174). -/
def GetPage (resp : HttpResponse) (decode : Str → Option Page) :
    Except ApiError Page :=
  if resp.status ≠ 200 then
    Except.error (ApiError.api resp.status resp.body)
  else
    match decode resp.body with
    | some page => Except.ok page
    | none => Except.error ApiError.decodeFailure

/-- The client-level limit default (client.go lines 113-115 and 179-181):
`if limit <= 0 { limit = 25 }`. -/
def clientLimit (l : Int) : Int := if l ≤ 0 then 25 else l

/-! ## Normalizer (pages.go `pageToDocument`) -/

/-- Go `pageToDocument`. -/
def pageToDocument (page : Page) (baseURL : Str) : Document :=
  let content0 := stripHTML page.body.storage.value
  let content := if content0 = [] then stripHTML page.body.view.value else content0
  let pageURL := baseURL ++ page.links.webui
  let metadata : List (Str × Str) :=
    [("page_id".data, page.id),
     ("space_key".data, page.space.key),
     ("space_name".data, page.space.name),
     ("status".data, page.status),
     ("version".data, (toString page.version.number).data)]
  { id := page.id
    content := content
    title := page.title
    source := "confluence".data
    url := pageURL
    metadata := metadata
    updatedAt := page.version.createdAt }

/-! ## Orchestrated operations (pages.go activities)

Each activity is parameterized by the client call (as a function of the
limit it is given) and the external store (`transform.StoreDocuments`).
The trace records the batch passed to the store (`none` when the store
call never happens) and the limit handed to the client. -/

/-- Go `FetchPagesInput`; `since` is the optional cutoff (`*time.Time`). -/
structure FetchPagesInput where
  baseURL : Str
  email : Str
  apiToken : Str
  spaceKey : Str
  since : Option Int
  limit : Int

/-- Go `FetchPagesOutput`. -/
structure FetchPagesOutput where
  ref : DataRef
  count : Nat
deriving DecidableEq

/-- The loop guard of `FetchPagesActivity` (lines 50-52): a page is kept
unless a cutoff is present and the version creation instant is strictly
before it. -/
def keepPage (since : Option Int) (p : Page) : Bool :=
  match since with
  | none => true
  | some t => !(decide (p.version.createdAt < t))

/-- The pages surviving the time filter, in order. -/
def filterPages (since : Option Int) (pages : List Page) : List Page :=
  pages.filter (keepPage since)

/-- Result of a batch activity run: the returned value or error, the batch
passed to the store (`none` when the store call was never made), and the
limit passed to the client call. -/
structure ActivityTrace (Out : Type) where
  result : Except OpError Out
  stored : Option (List Document)
  limitUsed : Int

/-- Go `FetchPagesActivity`: default the limit to 100 when non-positive,
fetch the space pages, drop pages older than the cutoff, normalize the
rest, store the batch, and return the reference with the stored count. -/
def FetchPagesActivity (input : FetchPagesInput)
    (client : Int → Except ApiError (List Page))
    (store : List Document → Except StoreErr DataRef) :
    ActivityTrace FetchPagesOutput :=
  let limit := if input.limit ≤ 0 then 100 else input.limit
  match client limit with
  | Except.error e => ⟨Except.error (OpError.remote e), none, limit⟩
  | Except.ok pages =>
    let docs := (filterPages input.since pages).map
      (fun page => pageToDocument page input.baseURL)
    match store docs with
    | Except.error e => ⟨Except.error (OpError.storeFailed e), some docs, limit⟩
    | Except.ok ref => ⟨Except.ok ⟨ref, docs.length⟩, some docs, limit⟩

/-- Go `SearchCQLInput`. -/
structure SearchCQLInput where
  baseURL : Str
  email : Str
  apiToken : Str
  cql : Str
  limit : Int

/-- Go `SearchCQLOutput`. -/
structure SearchCQLOutput where
  ref : DataRef
  count : Nat
deriving DecidableEq

/-- Go `SearchCQLActivity`: default the limit to 100 when non-positive,
search, normalize every returned item's page (no time filter), store the
batch, and return the reference with the stored count. -/
def SearchCQLActivity (input : SearchCQLInput)
    (client : Int → Except ApiError SearchResult)
    (store : List Document → Except StoreErr DataRef) :
    ActivityTrace SearchCQLOutput :=
  let limit := if input.limit ≤ 0 then 100 else input.limit
  match client limit with
  | Except.error e => ⟨Except.error (OpError.remote e), none, limit⟩
  | Except.ok result =>
    let docs := result.results.map
      (fun item => pageToDocument item.content input.baseURL)
    match store docs with
    | Except.error e => ⟨Except.error (OpError.storeFailed e), some docs, limit⟩
    | Except.ok ref => ⟨Except.ok ⟨ref, docs.length⟩, some docs, limit⟩

/-- Go `FetchPageInput`. -/
structure FetchPageInput where
  baseURL : Str
  email : Str
  apiToken : Str
  pageID : Str

/-- Go `FetchPageOutput`. -/
structure FetchPageOutput where
  document : Document
  found : Bool
deriving DecidableEq

/-- Go `FetchPageActivity`: fetch one page and normalize it; no store
call is ever made. -/
def FetchPageActivity (input : FetchPageInput)
    (pageResp : Except ApiError Page) :
    Except OpError FetchPageOutput :=
  match pageResp with
  | Except.error e => Except.error (OpError.remote e)
  | Except.ok page => Except.ok ⟨pageToDocument page input.baseURL, true⟩

/-! ## Sample values used by the witnesses -/

/-- A concrete page whose version was created at instant 5. -/
def samplePage : Page :=
  { id := "100".data
    type := "page".data
    status := "current".data
    title := "T".data
    space := { id := 1, key := "SP".data, name := "Sample Space".data }
    body := { storage := { value := "<p>Hello&nbsp;World</p>".data }
              view := { value := "".data } }
    version := { number := 3, whenStr := "2024-01-01".data, createdAt := 5 }
    links := { webui := "/x".data, self := "/rest/x".data } }

/-- A concrete fetch-pages input. -/
def sampleFetchInput : FetchPagesInput :=
  { baseURL := "https://e".data, email := "e".data, apiToken := "t".data
    spaceKey := "SP".data, since := none, limit := 1 }

/-- A concrete search input. -/
def sampleSearchInput : SearchCQLInput :=
  { baseURL := "https://e".data, email := "e".data, apiToken := "t".data
    cql := "q".data, limit := 1 }

/-- A concrete fetch-one-page input. -/
def samplePageInput : FetchPageInput :=
  { baseURL := "https://e".data, email := "e".data, apiToken := "t".data
    pageID := "100".data }

/-- A concrete store that numbers the batch by its size. -/
def sampleStore (docs : List Document) : Except StoreErr DataRef :=
  Except.ok ⟨docs.length⟩

/-! ## C1: the time filter is strict on the cutoff -/

/-- C1: with a cutoff `t` provided, a page of the fetched list is excluded
from the filtered (hence normalized/stored) list iff its version creation
instant is strictly before `t`; a page created exactly at `t` is kept. -/
theorem fetchPages_time_filter (pages : List Page) (t : Int) (p : Page)
    (hp : p ∈ pages) :
    (p ∉ filterPages (some t) pages ↔ p.version.createdAt < t) ∧
    (p.version.createdAt = t → p ∈ filterPages (some t) pages) := by
  constructor
  · simp [filterPages, keepPage, List.mem_filter, hp]
  · intro he
    simp [filterPages, keepPage, List.mem_filter, hp, he]

/-- Witness for C1 at the sample page (created at 5) and cutoff 5. -/
theorem fetchPages_time_filter_witness :
    (samplePage ∉ filterPages (some 5) [samplePage] ↔
      samplePage.version.createdAt < 5) ∧
    (samplePage.version.createdAt = 5 →
      samplePage ∈ filterPages (some 5) [samplePage]) :=
  fetchPages_time_filter [samplePage] 5 samplePage (by simp)

/-! ## C4: content source selection in `pageToDocument` -/

/-- C4: the document content is the stripped storage body when that is
non-empty; it falls back to the stripped view body exactly when the
storage body strips to the empty string; when both strip to empty the
content is empty (and `pageToDocument` is total, so no error arises). -/
theorem toDocument_content_selection (page : Page) (baseURL : Str) :
    (stripHTML page.body.storage.value ≠ [] →
      (pageToDocument page baseURL).content = stripHTML page.body.storage.value) ∧
    (stripHTML page.body.storage.value = [] →
      (pageToDocument page baseURL).content = stripHTML page.body.view.value) ∧
    (stripHTML page.body.storage.value = [] →
      stripHTML page.body.view.value = [] →
      (pageToDocument page baseURL).content = []) := by
  refine ⟨fun h => ?_, fun h => ?_, fun h h2 => ?_⟩
  · simp [pageToDocument, h]
  · simp [pageToDocument, h]
  · simp [pageToDocument, h, h2]

/-- Witness for C4: the sample page's storage body strips to a non-empty
string, so the content is the stripped storage body. -/
theorem toDocument_content_selection_witness :
    (pageToDocument samplePage "https://e".data).content =
      stripHTML samplePage.body.storage.value :=
  (toDocument_content_selection samplePage ("https://e".data)).1 (by
    simp [samplePage, stripHTML, stripTags, afterGt, entitySub, replaceAll,
      fields, joinWords, isSpace, List.isPrefixOf, String.data])

/-! ## C5: identifier copied and exactly five metadata keys -/

/-- C5: the document identifier equals the page identifier, and the
metadata mapping has exactly the five keys `page_id`, `space_key`,
`space_name`, `status`, `version` — with the version value the decimal
rendering of the version number. -/
theorem toDocument_id_metadata (page : Page) (baseURL : Str) :
    (pageToDocument page baseURL).id = page.id ∧
    (pageToDocument page baseURL).metadata.map Prod.fst =
      ["page_id".data, "space_key".data, "space_name".data,
       "status".data, "version".data] ∧
    ("version".data, (toString page.version.number).data) ∈
      (pageToDocument page baseURL).metadata := by
  refine ⟨rfl, rfl, ?_⟩
  simp [pageToDocument]

/-! ## C6: returned count = stored batch size = pages after filter -/

/-- C6: on a successful fetch-pages run the stored batch is exactly the
normalization of the filtered pages and the returned count is its length,
which equals the number of pages surviving the filter; on a successful
search run the stored batch is the normalization of the returned items
and the count equals the number of items (no filter). -/
theorem stored_count_eq_filtered (finput : FetchPagesInput) (sinput : SearchCQLInput)
    (fclient : Int → Except ApiError (List Page))
    (sclient : Int → Except ApiError SearchResult)
    (store : List Document → Except StoreErr DataRef)
    (pages : List Page) (result : SearchResult) (r1 r2 : DataRef)
    (hfc : fclient (if finput.limit ≤ 0 then 100 else finput.limit) = Except.ok pages)
    (hfs : store ((filterPages finput.since pages).map
      (fun page => pageToDocument page finput.baseURL)) = Except.ok r1)
    (hsc : sclient (if sinput.limit ≤ 0 then 100 else sinput.limit) = Except.ok result)
    (hss : store (result.results.map
      (fun item => pageToDocument item.content sinput.baseURL)) = Except.ok r2) :
    (FetchPagesActivity finput fclient store).result =
      Except.ok ⟨r1, ((filterPages finput.since pages).map
        (fun page => pageToDocument page finput.baseURL)).length⟩ ∧
    (FetchPagesActivity finput fclient store).stored =
      some ((filterPages finput.since pages).map
        (fun page => pageToDocument page finput.baseURL)) ∧
    ((filterPages finput.since pages).map
      (fun page => pageToDocument page finput.baseURL)).length =
      (filterPages finput.since pages).length ∧
    (SearchCQLActivity sinput sclient store).result =
      Except.ok ⟨r2, (result.results.map
        (fun item => pageToDocument item.content sinput.baseURL)).length⟩ ∧
    (SearchCQLActivity sinput sclient store).stored =
      some (result.results.map
        (fun item => pageToDocument item.content sinput.baseURL)) ∧
    (result.results.map
      (fun item => pageToDocument item.content sinput.baseURL)).length =
      result.results.length := by
  refine ⟨?_, ?_, List.length_map _ _, ?_, ?_, List.length_map _ _⟩ <;>
    simp [FetchPagesActivity, SearchCQLActivity, hfc, hfs, hsc, hss]

/-- Witness for C6: one page fetched with no cutoff, one search item,
the sample store. -/
theorem stored_count_eq_filtered_witness :
    (FetchPagesActivity sampleFetchInput (fun _ => Except.ok [samplePage])
      sampleStore).result =
      Except.ok ⟨⟨1⟩, ((filterPages sampleFetchInput.since [samplePage]).map
        (fun page => pageToDocument page sampleFetchInput.baseURL)).length⟩ ∧
    (FetchPagesActivity sampleFetchInput (fun _ => Except.ok [samplePage])
      sampleStore).stored =
      some ((filterPages sampleFetchInput.since [samplePage]).map
        (fun page => pageToDocument page sampleFetchInput.baseURL)) ∧
    ((filterPages sampleFetchInput.since [samplePage]).map
      (fun page => pageToDocument page sampleFetchInput.baseURL)).length =
      (filterPages sampleFetchInput.since [samplePage]).length ∧
    (SearchCQLActivity sampleSearchInput
      (fun _ => Except.ok ⟨[⟨samplePage, "T".data, "e".data, "u".data, "g".data⟩], 0, 1, 1⟩)
      sampleStore).result =
      Except.ok ⟨⟨1⟩, (([⟨samplePage, "T".data, "e".data, "u".data, "g".data⟩] :
          List SearchResultItem).map
        (fun item => pageToDocument item.content sampleSearchInput.baseURL)).length⟩ ∧
    (SearchCQLActivity sampleSearchInput
      (fun _ => Except.ok ⟨[⟨samplePage, "T".data, "e".data, "u".data, "g".data⟩], 0, 1, 1⟩)
      sampleStore).stored =
      some (([⟨samplePage, "T".data, "e".data, "u".data, "g".data⟩] :
          List SearchResultItem).map
        (fun item => pageToDocument item.content sampleSearchInput.baseURL)) ∧
    (([⟨samplePage, "T".data, "e".data, "u".data, "g".data⟩] :
        List SearchResultItem).map
      (fun item => pageToDocument item.content sampleSearchInput.baseURL)).length =
      ([⟨samplePage, "T".data, "e".data, "u".data, "g".data⟩] :
        List SearchResultItem).length :=
  stored_count_eq_filtered sampleFetchInput sampleSearchInput
    (fun _ => Except.ok [samplePage])
    (fun _ => Except.ok ⟨[⟨samplePage, "T".data, "e".data, "u".data, "g".data⟩], 0, 1, 1⟩)
    sampleStore [samplePage]
    ⟨[⟨samplePage, "T".data, "e".data, "u".data, "g".data⟩], 0, 1, 1⟩
    ⟨1⟩ ⟨1⟩ rfl rfl rfl rfl

/-! ## C7: an empty filtered batch still stores and returns count 0 -/

/-- C7: when the time filter leaves no page and the store accepts the
empty batch, fetch-pages succeeds, the store call is made with the empty
batch, and the returned count is 0. -/
theorem fetchPages_empty_batch (input : FetchPagesInput)
    (client : Int → Except ApiError (List Page))
    (store : List Document → Except StoreErr DataRef)
    (pages : List Page) (ref : DataRef)
    (hc : client (if input.limit ≤ 0 then 100 else input.limit) = Except.ok pages)
    (hfilter : filterPages input.since pages = [])
    (hs : store [] = Except.ok ref) :
    (FetchPagesActivity input client store).result = Except.ok ⟨ref, 0⟩ ∧
    (FetchPagesActivity input client store).stored = some [] := by
  constructor <;> simp [FetchPagesActivity, hc, hfilter, hs]

/-- Witness for C7: the sample page (created at 5) is filtered out by
cutoff 10, and the sample store accepts the empty batch. -/
theorem fetchPages_empty_batch_witness :
    (FetchPagesActivity
      { sampleFetchInput with since := some 10 }
      (fun _ => Except.ok [samplePage]) sampleStore).result =
      Except.ok ⟨⟨0⟩, 0⟩ ∧
    (FetchPagesActivity
      { sampleFetchInput with since := some 10 }
      (fun _ => Except.ok [samplePage]) sampleStore).stored = some [] :=
  fetchPages_empty_batch _ _ sampleStore [samplePage] ⟨0⟩ rfl (by decide) rfl

/-! ## C9: a non-success status aborts the operation and nothing is stored -/

/-- C9: when the remote response has a non-success (non-200) status, each
client call fails with the error carrying that status and the raw body,
each batch activity fails with that error without making the store call,
and the single-page activity fails producing no document. -/
theorem non_success_aborts (resp : HttpResponse) (hstatus : resp.status ≠ 200)
    (decodeP : Str → Option (List Page)) (decodeS : Str → Option SearchResult)
    (decodeG : Str → Option Page)
    (finput : FetchPagesInput) (sinput : SearchCQLInput) (pinput : FetchPageInput)
    (store : List Document → Except StoreErr DataRef) :
    GetSpacePages resp decodeP = Except.error (ApiError.api resp.status resp.body) ∧
    SearchCQLClient resp decodeS = Except.error (ApiError.api resp.status resp.body) ∧
    GetPage resp decodeG = Except.error (ApiError.api resp.status resp.body) ∧
    (FetchPagesActivity finput (fun _ => GetSpacePages resp decodeP) store).result =
      Except.error (OpError.remote (ApiError.api resp.status resp.body)) ∧
    (FetchPagesActivity finput (fun _ => GetSpacePages resp decodeP) store).stored =
      none ∧
    (SearchCQLActivity sinput (fun _ => SearchCQLClient resp decodeS) store).result =
      Except.error (OpError.remote (ApiError.api resp.status resp.body)) ∧
    (SearchCQLActivity sinput (fun _ => SearchCQLClient resp decodeS) store).stored =
      none ∧
    FetchPageActivity pinput (GetPage resp decodeG) =
      Except.error (OpError.remote (ApiError.api resp.status resp.body)) := by
  refine ⟨?_, ?_, ?_, ?_, ?_, ?_, ?_, ?_⟩ <;>
    simp [GetSpacePages, SearchCQLClient, GetPage, FetchPagesActivity,
      SearchCQLActivity, FetchPageActivity, hstatus]

/-- Witness for C9 at a concrete 404 response. -/
theorem non_success_aborts_witness :
    GetSpacePages ⟨404, "oops".data⟩ (fun _ => none) =
      Except.error (ApiError.api 404 "oops".data) ∧
    SearchCQLClient ⟨404, "oops".data⟩ (fun _ => none) =
      Except.error (ApiError.api 404 "oops".data) ∧
    GetPage ⟨404, "oops".data⟩ (fun _ => none) =
      Except.error (ApiError.api 404 "oops".data) ∧
    (FetchPagesActivity sampleFetchInput
      (fun _ => GetSpacePages ⟨404, "oops".data⟩ (fun _ => none)) sampleStore).result =
      Except.error (OpError.remote (ApiError.api 404 "oops".data)) ∧
    (FetchPagesActivity sampleFetchInput
      (fun _ => GetSpacePages ⟨404, "oops".data⟩ (fun _ => none)) sampleStore).stored =
      none ∧
    (SearchCQLActivity sampleSearchInput
      (fun _ => SearchCQLClient ⟨404, "oops".data⟩ (fun _ => none)) sampleStore).result =
      Except.error (OpError.remote (ApiError.api 404 "oops".data)) ∧
    (SearchCQLActivity sampleSearchInput
      (fun _ => SearchCQLClient ⟨404, "oops".data⟩ (fun _ => none)) sampleStore).stored =
      none ∧
    FetchPageActivity samplePageInput
      (GetPage ⟨404, "oops".data⟩ (fun _ => none)) =
      Except.error (OpError.remote (ApiError.api 404 "oops".data)) :=
  non_success_aborts ⟨404, "oops".data⟩ (by decide) (fun _ => none) (fun _ => none)
    (fun _ => none) sampleFetchInput sampleSearchInput samplePageInput sampleStore

/-! ## C10: the activity-level limit default shadows the client default -/

/-- The limit an activity hands to its client call. -/
theorem fetchPages_limitUsed (input : FetchPagesInput)
    (client : Int → Except ApiError (List Page))
    (store : List Document → Except StoreErr DataRef) :
    (FetchPagesActivity input client store).limitUsed =
      if input.limit ≤ 0 then 100 else input.limit := by
  unfold FetchPagesActivity
  cases h : client (if input.limit ≤ 0 then 100 else input.limit) with
  | error e => simp [h]
  | ok pages =>
    cases hs : store ((filterPages input.since pages).map
      (fun page => pageToDocument page input.baseURL)) with
    | error e => simp [h, hs]
    | ok ref => simp [h, hs]

/-- The limit the search activity hands to its client call. -/
theorem searchCQL_limitUsed (input : SearchCQLInput)
    (client : Int → Except ApiError SearchResult)
    (store : List Document → Except StoreErr DataRef) :
    (SearchCQLActivity input client store).limitUsed =
      if input.limit ≤ 0 then 100 else input.limit := by
  unfold SearchCQLActivity
  cases h : client (if input.limit ≤ 0 then 100 else input.limit) with
  | error e => simp [h]
  | ok result =>
    cases hs : store (result.results.map
      (fun item => pageToDocument item.content input.baseURL)) with
    | error e => simp [h, hs]
    | ok ref => simp [h, hs]

/-- C10: both batch activities hand a strictly positive limit to the
client (100 when the caller-supplied limit is non-positive), so the
client-level `if limit <= 0 then 25` default never fires through them. -/
theorem activity_limit_shadows_client_default (finput : FetchPagesInput)
    (sinput : SearchCQLInput)
    (fclient : Int → Except ApiError (List Page))
    (sclient : Int → Except ApiError SearchResult)
    (store : List Document → Except StoreErr DataRef) :
    (0 < (FetchPagesActivity finput fclient store).limitUsed ∧
      clientLimit (FetchPagesActivity finput fclient store).limitUsed =
        (FetchPagesActivity finput fclient store).limitUsed ∧
      (finput.limit ≤ 0 → (FetchPagesActivity finput fclient store).limitUsed = 100)) ∧
    (0 < (SearchCQLActivity sinput sclient store).limitUsed ∧
      clientLimit (SearchCQLActivity sinput sclient store).limitUsed =
        (SearchCQLActivity sinput sclient store).limitUsed ∧
      (sinput.limit ≤ 0 → (SearchCQLActivity sinput sclient store).limitUsed = 100)) := by
  rw [fetchPages_limitUsed, searchCQL_limitUsed]
  constructor
  · by_cases h : finput.limit ≤ 0 <;> simp [h, clientLimit] <;> omega
  · by_cases h : sinput.limit ≤ 0 <;> simp [h, clientLimit] <;> omega

/-- Witness for C10 at caller-supplied limit 0 for both activities. -/
theorem activity_limit_shadows_client_default_witness :
    (0 < (FetchPagesActivity { sampleFetchInput with limit := 0 }
        (fun _ => Except.ok []) sampleStore).limitUsed ∧
      clientLimit (FetchPagesActivity { sampleFetchInput with limit := 0 }
        (fun _ => Except.ok []) sampleStore).limitUsed =
        (FetchPagesActivity { sampleFetchInput with limit := 0 }
        (fun _ => Except.ok []) sampleStore).limitUsed ∧
      (({ sampleFetchInput with limit := 0 } : FetchPagesInput).limit ≤ 0 →
        (FetchPagesActivity { sampleFetchInput with limit := 0 }
        (fun _ => Except.ok []) sampleStore).limitUsed = 100)) ∧
    (0 < (SearchCQLActivity { sampleSearchInput with limit := 0 }
        (fun _ => Except.ok ⟨[], 0, 0, 0⟩) sampleStore).limitUsed ∧
      clientLimit (SearchCQLActivity { sampleSearchInput with limit := 0 }
        (fun _ => Except.ok ⟨[], 0, 0, 0⟩) sampleStore).limitUsed =
        (SearchCQLActivity { sampleSearchInput with limit := 0 }
        (fun _ => Except.ok ⟨[], 0, 0, 0⟩) sampleStore).limitUsed ∧
      (({ sampleSearchInput with limit := 0 } : SearchCQLInput).limit ≤ 0 →
        (SearchCQLActivity { sampleSearchInput with limit := 0 }
        (fun _ => Except.ok ⟨[], 0, 0, 0⟩) sampleStore).limitUsed = 100)) :=
  activity_limit_shadows_client_default { sampleFetchInput with limit := 0 }
    { sampleSearchInput with limit := 0 } (fun _ => Except.ok [])
    (fun _ => Except.ok ⟨[], 0, 0, 0⟩) sampleStore

/-! ## Structural lemmas about `stripHTML` -/

/-- Tag removal is the identity on text with no `<`. -/
theorem stripTags_no_lt (l : Str) (h : '<' ∉ l) : stripTags l = l := by
  induction l with
  | nil => simp [stripTags]
  | cons c rest ih =>
    have hc : ¬ c = '<' := by
      intro e
      exact h (by simp [e])
    have hr : '<' ∉ rest := fun hm => h (List.mem_cons_of_mem _ hm)
    rw [stripTags]
    simp [hc, ih hr]

/-- `replaceAll` is the identity when the pattern's first character does
not occur in the text. -/
theorem replaceAll_not_occurring (pat rep t : Str) (c0 : Char)
    (hpat : pat.head? = some c0) (h : c0 ∉ t) : replaceAll pat rep t = t := by
  induction t with
  | nil =>
    cases pat <;> simp [replaceAll]
  | cons c rest ih =>
    cases pat with
    | nil => simp at hpat
    | cons p ps =>
      have hp : p = c0 := by simpa using hpat
      have hcne : ¬ (p == c) = true := by
        subst hp
        simp only [beq_iff_eq]
        intro e
        exact h (by simp [e])
      have hnotpre : ¬ (p :: ps).isPrefixOf (c :: rest) = true := by
        simp only [List.isPrefixOf, Bool.and_eq_true]
        intro e
        exact hcne e.1
      rw [replaceAll]
      simp [hnotpre, ih (fun hm => h (List.mem_cons_of_mem _ hm))]

/-- The entity substitutions are the identity on text with no `&`. -/
theorem entitySub_no_amp (t : Str) (h : '&' ∉ t) : entitySub t = t := by
  unfold entitySub
  rw [replaceAll_not_occurring ("&nbsp;".data) (" ".data) t '&' rfl h,
    replaceAll_not_occurring ("&amp;".data) ("&".data) t '&' rfl h,
    replaceAll_not_occurring ("&lt;".data) ("<".data) t '&' rfl h,
    replaceAll_not_occurring ("&gt;".data) (">".data) t '&' rfl h,
    replaceAll_not_occurring ("&quot;".data) ("\"".data) t '&' rfl h]

theorem takeWhile_all (p : Char → Bool) (l : Str) (h : ∀ c ∈ l, p c = true) :
    l.takeWhile p = l := by
  induction l with
  | nil => simp
  | cons a l ih =>
    simp [List.takeWhile_cons, h a (by simp),
      ih (fun c hc => h c (by simp [hc]))]

theorem dropWhile_all (p : Char → Bool) (l : Str) (h : ∀ c ∈ l, p c = true) :
    l.dropWhile p = [] := by
  induction l with
  | nil => simp
  | cons a l ih =>
    simp [List.dropWhile_cons, h a (by simp),
      ih (fun c hc => h c (by simp [hc]))]

theorem takeWhile_append_all (p : Char → Bool) (l₁ l₂ : Str)
    (h : ∀ c ∈ l₁, p c = true) :
    (l₁ ++ l₂).takeWhile p = l₁ ++ l₂.takeWhile p := by
  induction l₁ with
  | nil => simp
  | cons a l ih =>
    simp [List.takeWhile_cons, h a (by simp),
      ih (fun c hc => h c (by simp [hc]))]

theorem dropWhile_append_all (p : Char → Bool) (l₁ l₂ : Str)
    (h : ∀ c ∈ l₁, p c = true) :
    (l₁ ++ l₂).dropWhile p = l₂.dropWhile p := by
  induction l₁ with
  | nil => simp
  | cons a l ih =>
    simp [List.dropWhile_cons, h a (by simp),
      ih (fun c hc => h c (by simp [hc]))]

/-- Every word produced by `fields` is non-empty and whitespace-free. -/
theorem fields_words (l : Str) :
    ∀ w ∈ fields l, w ≠ [] ∧ ∀ c ∈ w, isSpace c = false := by
  induction l using fields.induct with
  | case1 => simp [fields]
  | case2 c rest hsp ih =>
    rw [fields]
    simpa [hsp] using ih
  | case3 c rest hsp ih =>
    rw [fields]
    simp only [hsp, if_false]
    intro w hw
    rcases List.mem_cons.mp hw with hw | hw
    · subst hw
      refine ⟨by simp, ?_⟩
      intro d hd
      rcases List.mem_cons.mp hd with hd | hd
      · subst hd
        simpa using hsp
      · have := List.mem_takeWhile_imp hd
        simpa using this
    · exact ih w hw

/-- `fields` recovers the word list from a single-space join of
non-empty, whitespace-free words. -/
theorem fields_joinWords (ws : List Str)
    (h : ∀ w ∈ ws, w ≠ [] ∧ ∀ c ∈ w, isSpace c = false) :
    fields (joinWords ws) = ws := by
  induction ws with
  | nil => simp [joinWords, fields]
  | cons w ws ih =>
    obtain ⟨hw, hcs⟩ := h w (by simp)
    obtain ⟨c, w', rfl⟩ : ∃ c w', w = c :: w' := by
      cases w with
      | nil => exact absurd rfl hw
      | cons c w' => exact ⟨c, w', rfl⟩
    have hc : isSpace c = false := hcs c (by simp)
    have hw' : ∀ d ∈ w', (fun d => !isSpace d) d = true := by
      intro d hd
      simp [hcs d (by simp [hd])]
    cases ws with
    | nil =>
      show fields (c :: w') = [c :: w']
      rw [fields]
      simp [hc, takeWhile_all _ _ hw', dropWhile_all _ _ hw', fields]
    | cons w₂ ws₂ =>
      have htail : ∀ w ∈ w₂ :: ws₂, w ≠ [] ∧ ∀ c ∈ w, isSpace c = false :=
        fun w hw => h w (by simp [hw])
      have hpa : ¬ ((fun d => !isSpace d) ' ' = true) := by decide
      have hspt : isSpace ' ' = true := by decide
      show fields ((c :: w') ++ ' ' :: joinWords (w₂ :: ws₂)) = _
      rw [List.cons_append, fields]
      rw [if_neg (show ¬ (isSpace c = true) by simp [hc])]
      rw [takeWhile_append_all _ _ _ hw', dropWhile_append_all _ _ _ hw',
        List.takeWhile_cons_of_neg (p := fun d => !isSpace d) hpa,
        List.dropWhile_cons_of_neg (p := fun d => !isSpace d) hpa,
        List.append_nil]
      rw [fields]
      rw [if_pos hspt]
      rw [ih htail]

/-- No word of a join of non-empty words is the empty join. -/
theorem joinWords_ne_nil (w : Str) (ws : List Str) (hw : w ≠ []) :
    joinWords (w :: ws) ≠ [] := by
  cases ws with
  | nil => simpa [joinWords]
  | cons b l => simp [joinWords]

/-- A whitespace-free list never has two adjacent whitespace characters. -/
theorem all_nonspace_chain (w : Str) (h : ∀ c ∈ w, isSpace c = false) :
    List.Chain' (fun a b => isSpace a = false ∨ isSpace b = false) w := by
  induction w with
  | nil => simp
  | cons a l ih =>
    rw [List.chain'_cons']
    exact ⟨fun y _ => Or.inl (h a (by simp)),
      ih (fun c hc => h c (by simp [hc]))⟩

/-- The head of a single-space join of non-empty whitespace-free words is
not whitespace. -/
theorem joinWords_head_nonspace (ws : List Str)
    (h : ∀ w ∈ ws, w ≠ [] ∧ ∀ c ∈ w, isSpace c = false) :
    ∀ c ∈ (joinWords ws).head?, isSpace c = false := by
  cases ws with
  | nil => intro c hc; simp [joinWords] at hc
  | cons w ws =>
    obtain ⟨hw, hcs⟩ := h w (by simp)
    obtain ⟨a, w', rfl⟩ : ∃ a w', w = a :: w' := by
      cases w with
      | nil => exact absurd rfl hw
      | cons a w' => exact ⟨a, w', rfl⟩
    cases ws with
    | nil =>
      intro c hc
      simp [joinWords] at hc
      exact hc ▸ hcs a (by simp)
    | cons w₂ ws₂ =>
      intro c hc
      have : joinWords ((a :: w') :: w₂ :: ws₂) =
          a :: (w' ++ ' ' :: joinWords (w₂ :: ws₂)) := rfl
      rw [this] at hc
      simp at hc
      exact hc ▸ hcs a (by simp)

/-- The last character of a single-space join of non-empty
whitespace-free words is not whitespace. -/
theorem joinWords_getLast_nonspace (ws : List Str)
    (h : ∀ w ∈ ws, w ≠ [] ∧ ∀ c ∈ w, isSpace c = false) :
    ∀ c ∈ (joinWords ws).getLast?, isSpace c = false := by
  induction ws with
  | nil => intro c hc; simp [joinWords] at hc
  | cons w ws ih =>
    obtain ⟨hw, hcs⟩ := h w (by simp)
    cases ws with
    | nil =>
      intro c hc
      have hjw : joinWords [w] = w := rfl
      rw [hjw] at hc
      obtain ⟨hne, heq⟩ := List.mem_getLast?_eq_getLast hc
      exact hcs c (heq ▸ List.getLast_mem hne)
    | cons w₂ ws₂ =>
      have htail : ∀ w ∈ w₂ :: ws₂, w ≠ [] ∧ ∀ c ∈ w, isSpace c = false :=
        fun w hw => h w (by simp [hw])
      have hJ : joinWords (w₂ :: ws₂) ≠ [] :=
        joinWords_ne_nil w₂ ws₂ (htail w₂ (by simp)).1
      intro c hc
      have hjw : joinWords (w :: w₂ :: ws₂) =
          w ++ ' ' :: joinWords (w₂ :: ws₂) := rfl
      rw [hjw, List.getLast?_append_cons] at hc
      rw [show (' ' :: joinWords (w₂ :: ws₂)) =
          [' '] ++ joinWords (w₂ :: ws₂) from rfl,
        List.getLast?_append_of_ne_nil _ hJ] at hc
      exact ih htail c hc

/-- A single-space join of non-empty whitespace-free words has no two
adjacent whitespace characters. -/
theorem joinWords_chain (ws : List Str)
    (h : ∀ w ∈ ws, w ≠ [] ∧ ∀ c ∈ w, isSpace c = false) :
    List.Chain' (fun a b => isSpace a = false ∨ isSpace b = false)
      (joinWords ws) := by
  induction ws with
  | nil => simp [joinWords]
  | cons w ws ih =>
    obtain ⟨hw, hcs⟩ := h w (by simp)
    cases ws with
    | nil => simpa [joinWords] using all_nonspace_chain w hcs
    | cons w₂ ws₂ =>
      have htail : ∀ w ∈ w₂ :: ws₂, w ≠ [] ∧ ∀ c ∈ w, isSpace c = false :=
        fun w hw => h w (by simp [hw])
      have hjw : joinWords (w :: w₂ :: ws₂) =
          w ++ ' ' :: joinWords (w₂ :: ws₂) := rfl
      rw [hjw, List.chain'_append]
      refine ⟨all_nonspace_chain w hcs, ?_, ?_⟩
      · rw [List.chain'_cons']
        exact ⟨fun y hy => Or.inr (joinWords_head_nonspace _ htail y hy),
          ih htail⟩
      · intro x hx y hy
        obtain ⟨hne, heq⟩ := List.mem_getLast?_eq_getLast hx
        exact Or.inl (hcs x (heq ▸ List.getLast_mem hne))

/-! ## C8: whitespace normalization of the output -/

/-- C8: `stripHTML` output never has two adjacent whitespace characters,
and neither its first nor its last character is whitespace. -/
theorem stripHTML_whitespace_normal (s : Str) :
    List.Chain' (fun a b => isSpace a = false ∨ isSpace b = false)
      (stripHTML s) ∧
    (∀ c ∈ (stripHTML s).head?, isSpace c = false) ∧
    (∀ c ∈ (stripHTML s).getLast?, isSpace c = false) :=
  ⟨joinWords_chain _ (fields_words _),
    joinWords_head_nonspace _ (fields_words _),
    joinWords_getLast_nonspace _ (fields_words _)⟩

/-- Witness for C8 at a concrete input. -/
theorem stripHTML_whitespace_normal_witness :
    List.Chain' (fun a b => isSpace a = false ∨ isSpace b = false)
      (stripHTML ("<p>Hello&nbsp;World</p>".data)) ∧
    (∀ c ∈ (stripHTML ("<p>Hello&nbsp;World</p>".data)).head?,
      isSpace c = false) ∧
    (∀ c ∈ (stripHTML ("<p>Hello&nbsp;World</p>".data)).getLast?,
      isSpace c = false) :=
  stripHTML_whitespace_normal ("<p>Hello&nbsp;World</p>".data)

/-! ## C2 and C3: idempotence and entity-substitution order -/

/-- The text contains a tag-shaped substring: a `<`, a run of
non-`>` characters, then a `>`. -/
def containsTag (l : Str) : Prop :=
  ∃ u v w, l = u ++ '<' :: v ++ '>' :: w ∧ '>' ∉ v

/-- The five character-entity codes handled by `stripHTML`. -/
def entityCodes : List Str :=
  ["&nbsp;".data, "&amp;".data, "&lt;".data, "&gt;".data, "&quot;".data]

/-- The text contains one of the five character-entity codes. -/
def containsEntityCode (l : Str) : Prop :=
  ∃ e ∈ entityCodes, e <:+: l

/-- Counterexample to C2: on input `&amp;nbsp;` the output of `stripHTML`
is the raw entity code `&nbsp;`, so the output can contain an entity
code, and applying `stripHTML` again erases it, so `stripHTML` is not
idempotent on its own output; and on input `&lt;x&gt;` the output is the
tag-shaped text `<x>`. -/
theorem stripHTML_not_idempotent_cex :
    stripHTML (stripHTML ("&amp;nbsp;".data)) ≠ stripHTML ("&amp;nbsp;".data) ∧
    containsEntityCode (stripHTML ("&amp;nbsp;".data)) ∧
    containsTag (stripHTML ("&lt;x&gt;".data)) := by
  have h1 : stripHTML ("&amp;nbsp;".data) = "&nbsp;".data := by
    simp [stripHTML, stripTags, afterGt, entitySub, replaceAll, fields,
      joinWords, isSpace, List.isPrefixOf, String.data]
  have h2 : stripHTML ("&nbsp;".data) = [] := by
    simp [stripHTML, stripTags, afterGt, entitySub, replaceAll, fields,
      joinWords, isSpace, List.isPrefixOf, String.data]
  have h3 : stripHTML ("&lt;x&gt;".data) = "<x>".data := by
    simp [stripHTML, stripTags, afterGt, entitySub, replaceAll, fields,
      joinWords, isSpace, List.isPrefixOf, String.data]
  refine ⟨?_, ?_, ?_⟩
  · rw [h1, h2]
    decide
  · rw [h1]
    exact ⟨"&nbsp;".data, by simp [entityCodes], List.infix_rfl⟩
  · rw [h3]
    exact ⟨[], ['x'], [], by decide⟩

/-- C2 amended: on inputs whose stripped output contains neither `<` nor
`&`, `stripHTML` is idempotent on its own output, and that output
contains no tag-shaped substring and no entity code. (The unconditional
claim fails: `&amp;nbsp;` strips to the entity code `&nbsp;` and
`&lt;x&gt;` strips to the tag-shaped `<x>`.) -/
theorem stripHTML_idempotent_amended (s : Str)
    (h1 : '<' ∉ stripHTML s) (h2 : '&' ∉ stripHTML s) :
    stripHTML (stripHTML s) = stripHTML s ∧
    ¬ containsTag (stripHTML s) ∧ ¬ containsEntityCode (stripHTML s) := by
  refine ⟨?_, ?_, ?_⟩
  · show joinWords (fields (entitySub (stripTags (stripHTML s)))) = stripHTML s
    rw [stripTags_no_lt _ h1, entitySub_no_amp _ h2]
    show joinWords (fields (joinWords (fields (entitySub (stripTags s))))) = _
    rw [fields_joinWords _ (fields_words _)]
    rfl
  · rintro ⟨u, v, w, heq, hv⟩
    exact h1 (by rw [heq]; simp)
  · rintro ⟨e, he, hinf⟩
    have hamp : '&' ∈ e := by
      simp [entityCodes] at he
      rcases he with rfl | rfl | rfl | rfl | rfl <;> decide
    exact h2 (hinf.sublist.subset hamp)

/-- Witness for the amended C2: `<p>Hello&nbsp;World</p>` strips to
`Hello World`, which has neither `<` nor `&`. -/
theorem stripHTML_idempotent_amended_witness :
    stripHTML (stripHTML ("<p>Hello&nbsp;World</p>".data)) =
      stripHTML ("<p>Hello&nbsp;World</p>".data) ∧
    ¬ containsTag (stripHTML ("<p>Hello&nbsp;World</p>".data)) ∧
    ¬ containsEntityCode (stripHTML ("<p>Hello&nbsp;World</p>".data)) :=
  stripHTML_idempotent_amended ("<p>Hello&nbsp;World</p>".data)
    (by
      have hv : stripHTML ("<p>Hello&nbsp;World</p>".data) = "Hello World".data := by
        simp [stripHTML, stripTags, afterGt, entitySub, replaceAll, fields,
          joinWords, isSpace, List.isPrefixOf, String.data]
      rw [hv]
      decide)
    (by
      have hv : stripHTML ("<p>Hello&nbsp;World</p>".data) = "Hello World".data := by
        simp [stripHTML, stripTags, afterGt, entitySub, replaceAll, fields,
          joinWords, isSpace, List.isPrefixOf, String.data]
      rw [hv]
      decide)

/-- Counterexample to C3: the ampersand produced by decoding `&amp;` IS
consumed by the later less-than substitution: `&amp;lt;` decodes to `<`,
not to the literal text `&lt;`. -/
theorem entity_amp_consumed_cex :
    entitySub ("&amp;lt;".data) = "<".data ∧
    stripHTML ("&amp;lt;".data) = "<".data ∧
    stripHTML ("&amp;lt;".data) ≠ "&lt;".data := by
  have e1 : entitySub ("&amp;lt;".data) = "<".data := by
    simp [entitySub, replaceAll, List.isPrefixOf, String.data]
  have e2 : stripHTML ("&amp;lt;".data) = "<".data := by
    simp [stripHTML, stripTags, afterGt, entitySub, replaceAll, fields,
      joinWords, isSpace, List.isPrefixOf, String.data]
  exact ⟨e1, e2, by rw [e2]; decide⟩

/-- C3 amended: each substitution is applied once, in the listed order,
on the tag-stripped text (one left-to-right pass each, as `entitySub`
realizes); a single pass never re-expands its own output (`&amp;amp;`
yields `&amp;`), and `&amp;nbsp;` survives as `&nbsp;` because the
non-breaking-space pass runs first — but since the ampersand pass runs
before the less-than, greater-than and quote passes, an ampersand it
produces IS consumed by those later passes: `&amp;lt;`, `&amp;gt;` and
`&amp;quot;` decode to `<`, `>` and `"`. -/
theorem entity_order_amended :
    entitySub ("&amp;nbsp;".data) = "&nbsp;".data ∧
    entitySub ("&amp;amp;".data) = "&amp;".data ∧
    entitySub ("&amp;lt;".data) = "<".data ∧
    entitySub ("&amp;gt;".data) = ">".data ∧
    entitySub ("&amp;quot;".data) = "\"".data ∧
    stripHTML ("&amp;nbsp;".data) = "&nbsp;".data := by
  refine ⟨?_, ?_, ?_, ?_, ?_, ?_⟩ <;>
    simp [stripHTML, stripTags, afterGt, entitySub, replaceAll, fields,
      joinWords, isSpace, List.isPrefixOf, String.data]

end Confluence
